import Mathlib

/-!
Shallow embedding of src/update_gold_prices.py (gold-price-data).

The script keeps a local CSV ledger of daily gold prices, fetches new rows
from a provider, appends the unseen ones, and pushes the file to a remote
content API.  We embed the pure decision logic of the three functions
retry, update_csv_file and push_to_github, making the ambient effects
explicit:

  - the current day (datetime.today) is a parameter;
  - the provider call (fetch_data_from_yfinance) is a function parameter
    returning Option (none models the internal except branch returning None);
  - the ledger file on disk is a value of type Option LedgerFile
    (none = the file does not exist);
  - an exception escaping the Python function is recorded in the trace
    (field raised), with the disk state it leaves behind;
  - pandas floats are modelled as exact rationals.
-/

namespace GoldPrice

/-- Calendar date, modelling a pandas day-granularity timestamp. -/
structure Date where
  year : Nat
  month : Nat
  day : Nat
deriving DecidableEq, Repr

/-- Gregorian leap-year test, as pandas timestamps use. -/
def isLeapYear (y : Nat) : Bool :=
  (y % 4 == 0 && y % 100 != 0) || (y % 400 == 0)

/-- Number of days of month m in year y. -/
def daysInMonth (y m : Nat) : Nat :=
  if m == 2 then (if isLeapYear y then 29 else 28)
  else if m == 4 || m == 6 || m == 9 || m == 11 then 30
  else 31

/-- Adding pd.Timedelta(days=1) to a date (line 58 of the source). -/
def Date.nextDay (d : Date) : Date :=
  if d.day < daysInMonth d.year d.month then ⟨d.year, d.month, d.day + 1⟩
  else if d.month < 12 then ⟨d.year, d.month + 1, 1⟩
  else ⟨d.year + 1, 1, 1⟩

/-- Chronological strict order on dates (comparison of pandas timestamps;
equal to lexicographic order on year, month, day). -/
def Date.lt (a b : Date) : Bool :=
  a.year < b.year ||
    (a.year == b.year &&
      (a.month < b.month || (a.month == b.month && a.day < b.day)))

/-- Propositional form of Date.lt. -/
def Date.Lt (a b : Date) : Prop := Date.lt a b = true

instance : DecidablePred fun p : Date × Date => Date.Lt p.1 p.2 := by
  intro p; unfold Date.Lt; infer_instance

instance (a b : Date) : Decidable (Date.Lt a b) := by
  unfold Date.Lt; infer_instance

/-- Chronological non-strict order on dates. -/
def Date.Le (a b : Date) : Prop := a = b ∨ Date.Lt a b

instance (a b : Date) : Decidable (Date.Le a b) := by
  unfold Date.Le; infer_instance

/-- Binary maximum of two dates. -/
def maxD (a b : Date) : Date := if Date.lt a b then b else a

/-- The maximum of a list of dates, modelling Series.max(): none on an empty
column (pandas NaT). -/
def maxDate : List Date → Option Date
  | [] => none
  | d :: ds => some (ds.foldl maxD d)

/-- A row of the provider result (gld.history), one day of data:
a DatetimeIndex entry and the four price columns, in provider units. -/
structure FetchRow where
  date : Date
  Open : ℚ
  High : ℚ
  Low : ℚ
  Close : ℚ
deriving DecidableEq, Repr

/-- A data row of the ledger file as stored on disk: the date cell after
pd.to_datetime(..., errors=coerce) (none = unparseable, dropped by dropna),
and the remaining numeric cells in file order. -/
structure Entry where
  date : Option Date
  vals : List ℚ
deriving DecidableEq, Repr

/-- The ledger file on disk: its header line (list of column names) and its
data rows. -/
structure LedgerFile where
  header : List String
  rows : List Entry
deriving DecidableEq, Repr

/-- Rows kept by pd.read_csv(..., on_bad_lines=skip): a row with more cells
than the header is a bad line and is skipped; a row with at most as many
cells is kept (short rows are NaN-padded). -/
def readRows (f : LedgerFile) : List Entry :=
  f.rows.filter fun e => 1 + e.vals.length ≤ f.header.length

/-- The parseable dates of the file: read, coerce the date column, dropna
(lines 47-52 of the source). -/
def parsedDates (f : LedgerFile) : List Date :=
  (readRows f).filterMap Entry.date

/-- The dates present in a list of rows as stored (valid date cells of every
row, whatever its width). -/
def entryDates (l : List Entry) : List Date :=
  l.filterMap Entry.date

/-- The five column names the script assigns to the data it reads
(lines 48-49 of the source). -/
def persistedSchema : List String :=
  ["Date", "Open (Spot Price USD)", "High (Spot Price USD)",
   "Low (Spot Price USD)", "Close (Spot Price USD)"]

/-- Assigning a new column to a DataFrame: appends the name if absent. -/
def addColumn (cols : List String) (c : String) : List String :=
  if c ∈ cols then cols else cols ++ [c]

/-- Column names of selected_data as written by to_csv: the four selected
provider columns, the four scaled columns added by lines 74-77, and the Date
column prepended by reset_index (line 78). -/
def writtenColumns : List String :=
  "Date" ::
    addColumn
      (addColumn
        (addColumn
          (addColumn ["Open", "High", "Low", "Close"] "Open (Spot Price USD)")
          "High (Spot Price USD)")
        "Low (Spot Price USD)")
      "Close (Spot Price USD)"

/-- The fixed multiplier of line 73 of the source. -/
def scaling_factor : ℚ := 1077 / 100

/-- A row of selected_data after lines 72-79: the date from the index and
all eight price columns (the four provider columns are selected, the four
scaled columns are added next to them; none is dropped). -/
structure Row where
  date : Date
  Open : ℚ
  High : ℚ
  Low : ℚ
  Close : ℚ
  openSpot : ℚ
  highSpot : ℚ
  lowSpot : ℚ
  closeSpot : ℚ
deriving DecidableEq, Repr

/-- Lines 72-79 of the source: select the four provider columns, scale each
by scaling_factor into a new column, reset the index and stringify dates. -/
def processFetched (historical : List FetchRow) : List Row :=
  historical.map fun r =>
    { date := r.date
      Open := r.Open, High := r.High, Low := r.Low, Close := r.Close
      openSpot := r.Open * scaling_factor
      highSpot := r.High * scaling_factor
      lowSpot := r.Low * scaling_factor
      closeSpot := r.Close * scaling_factor }

/-- A written row as it lands in the CSV file: the date cell (reparsed by a
later read, always successfully, since it was written as Y-m-d) and the
eight numeric cells in column order. -/
def rowToEntry (r : Row) : Entry :=
  { date := some r.date
    vals := [r.Open, r.High, r.Low, r.Close,
             r.openSpot, r.highSpot, r.lowSpot, r.closeSpot] }

/-- The default start date of line 42 of the source. -/
def defaultStartDate : Date := ⟨2020, 1, 1⟩

/-- Observable outcome of one call of update_csv_file. -/
structure UpdateTrace where
  /-- The ledger file on disk after the call. -/
  fileAfter : Option LedgerFile
  /-- True when an exception escaped the function (the except clause of the
  read block catches only ParserError, so a ValueError propagates). -/
  raised : Bool
  /-- The (start_date, today) pair passed to fetch_data_from_yfinance, when
  the fetch was reached. -/
  fetchWindow : Option (Date × Date)
  /-- Number of calls made to fetch_data_from_yfinance in this run. -/
  fetchCalls : Nat
  /-- True when a to_csv write was performed. -/
  wroteFile : Bool
deriving Repr

/-- Lines 66-94 of the source, after the fetch: on data, process, dedupe
against the existing dates and write.  Returns the file on disk afterwards
and whether a to_csv write happened. -/
def writeStep (historicalOpt : Option (List FetchRow))
    (file : Option LedgerFile) (existingDates : List Date) :
    Option LedgerFile × Bool :=
  match historicalOpt with
  | none => (file, false)
  | some historical =>
    if historical.isEmpty then (file, false)
    else
      let selected := processFetched historical
      let newData :=
        match file with
        | some _ =>
          selected.filter fun (r : Row) => !(decide (r.date ∈ existingDates))
        | none => selected
      if newData.isEmpty then (file, false)
      else
        match file with
        | some f =>
          (some ⟨f.header, f.rows ++ newData.map rowToEntry⟩, true)
        | none =>
          (some ⟨writtenColumns, newData.map rowToEntry⟩, true)

/-- Lines 64-96 of the source: call fetch_data_from_yfinance once for
[start_date, today] and run the write step on its result. -/
def fetchAndWrite (today start : Date)
    (fetch : Date → Date → Option (List FetchRow))
    (file : Option LedgerFile) (existingDates : List Date) : UpdateTrace :=
  ⟨(writeStep (fetch start today) file existingDates).1, false,
   some (start, today), 1,
   (writeStep (fetch start today) file existingDates).2⟩

/-- Lines 36-96 of the source: update_csv_file.  tokenPresent models the
GITHUB_TOKEN environment lookup, today the datetime.today() call, fetch the
provider, file the ledger on disk. -/
def update_csv_file (tokenPresent : Bool) (today : Date)
    (fetch : Date → Date → Option (List FetchRow))
    (file : Option LedgerFile) : UpdateTrace :=
  if !tokenPresent then ⟨file, false, none, 0, false⟩
  else
    match file with
    | none => fetchAndWrite today defaultStartDate fetch none []
    | some f =>
      -- line 48: assigning five names raises ValueError unless the frame
      -- has exactly five columns; only ParserError is caught (line 60)
      if f.header.length ≠ 5 then ⟨some f, true, none, 0, false⟩
      else
        match maxDate (parsedDates f) with
        -- max of an empty column is NaT; NaT.strftime raises (uncaught)
        | none => ⟨some f, true, none, 0, false⟩
        | some last =>
          if last = today then ⟨some f, false, none, 0, false⟩
          else fetchAndWrite today (Date.nextDay last) fetch (some f)
            (parsedDates f)

/-- The metadata GET response of line 111: an HTTP status and the optional
sha field of the JSON body. -/
structure GetResponse where
  status : Nat
  sha : Option String
deriving DecidableEq, Repr

/-- Observable outcome of one call of push_to_github.  Every failure branch
is a constructor: the function body is one try block whose except clause
catches every exception, so nothing propagates. -/
inductive PushOutcome where
  /-- Missing GITHUB_TOKEN: logged, return (lines 100-102). -/
  | noToken
  /-- An exception inside the try block was caught and logged (line 130),
  e.g. FileNotFoundError when the local CSV does not exist. -/
  | caughtError
  /-- Non-200 metadata GET: logged, return without a PUT (lines 112-114). -/
  | metadataError (status : Nat)
  /-- The PUT of line 125 was issued, carrying the sha fetched by the GET;
  success reflects the 200/201 check of line 126. -/
  | putIssued (sha : Option String) (putStatus : Nat) (success : Bool)
deriving DecidableEq, Repr

/-- Lines 99-131 of the source: push_to_github.  localFile models the
open/read of the local CSV, resp the metadata GET, putStatus the status of
the PUT response. -/
def push_to_github (tokenPresent : Bool) (localFile : Option LedgerFile)
    (resp : GetResponse) (putStatus : Nat) : PushOutcome :=
  if !tokenPresent then .noToken
  else
    match localFile with
    | none => .caughtError
    | some _ =>
      if resp.status ≠ 200 then .metadataError resp.status
      else .putIssued resp.sha putStatus (putStatus == 200 || putStatus == 201)

/-- True when the outcome issued the PUT request. -/
def PushOutcome.isPut : PushOutcome → Bool
  | .putIssued _ _ _ => true
  | _ => false

/-- Line 135 of the source: the scheduled job evaluates
(update_csv_file(), push_to_github()) left to right; when update_csv_file
raises, the tuple expression propagates and push_to_github is not reached.
The outcome is the update trace together with the push outcome when the
push was invoked. -/
def dailyJob (tokenPresent : Bool) (today : Date)
    (fetch : Date → Date → Option (List FetchRow))
    (file : Option LedgerFile) (resp : GetResponse) (putStatus : Nat) :
    UpdateTrace × Option PushOutcome :=
  let t := update_csv_file tokenPresent today fetch file
  if t.raised then (t, none)
  else (t, some (push_to_github tokenPresent t.fileAfter resp putStatus))

/-- Fixed retry bound of line 16 of the source. -/
def retryRetries : Nat := 3

/-- Fixed retry delay in seconds of line 16 of the source. -/
def retryDelay : Nat := 5

/-- Loop of lines 17-24: func is modelled by the outcome of each attempt
(none = the attempt raised); i is the index of the next attempt, k the
remaining iterations.  Returns the result and the number of attempts made. -/
def retryAux (func : Nat → Option α) : Nat → Nat → Option α × Nat
  | i, 0 => (none, i)
  | i, k + 1 =>
    match func i with
    | some a => (some a, i + 1)
    | none => retryAux func (i + 1) k

/-- Lines 16-24 of the source: retry(func, retries=3, delay=5).  The delay
only sleeps and does not affect the result. -/
def retry (func : Nat → Option α) (retries delay : Nat) : Option α × Nat :=
  retryAux func 0 retries

/-! Helper lemmas about the date order. -/

theorem Date.lt_iff {a b : Date} :
    Date.Lt a b ↔
      a.year < b.year ∨
        (a.year = b.year ∧
          (a.month < b.month ∨ (a.month = b.month ∧ a.day < b.day))) := by
  cases a; cases b
  simp [Date.Lt, Date.lt]

theorem Date.lt_irrefl (a : Date) : ¬ Date.Lt a a := by
  simp [Date.lt_iff]

theorem Date.lt_trans {a b c : Date} (h1 : Date.Lt a b) (h2 : Date.Lt b c) :
    Date.Lt a c := by
  rw [Date.lt_iff] at h1 h2 ⊢
  omega

theorem Date.Lt.ne {a b : Date} (h : Date.Lt a b) : a ≠ b := by
  intro he; subst he; exact Date.lt_irrefl a h

theorem Date.not_lt_iff {a b : Date} :
    ¬ Date.Lt a b ↔ (a = b ∨ Date.Lt b a) := by
  cases a; cases b
  simp [Date.lt_iff, Date.mk.injEq]
  omega

theorem Date.Le.trans_lt {a b c : Date} (h1 : Date.Le a b)
    (h2 : Date.Lt b c) : Date.Lt a c := by
  rcases h1 with rfl | h1
  · exact h2
  · exact Date.lt_trans h1 h2

theorem Date.Lt.trans_le {a b c : Date} (h1 : Date.Lt a b)
    (h2 : Date.Le b c) : Date.Lt a c := by
  rcases h2 with rfl | h2
  · exact h1
  · exact Date.lt_trans h1 h2

theorem Date.lt_nextDay (d : Date) : Date.Lt d d.nextDay := by
  unfold Date.nextDay
  split
  · exact Date.lt_iff.mpr (Or.inr ⟨rfl, Or.inr ⟨rfl, Nat.lt_succ_self _⟩⟩)
  · split
    · exact Date.lt_iff.mpr (Or.inr ⟨rfl, Or.inl (Nat.lt_succ_self _)⟩)
    · exact Date.lt_iff.mpr (Or.inl (Nat.lt_succ_self _))

theorem Date.le_maxD_left (a b : Date) : Date.Le a (maxD a b) := by
  unfold maxD
  split
  · exact Or.inr ‹Date.lt a b = true›
  · exact Or.inl rfl

theorem Date.le_maxD_right (a b : Date) : Date.Le b (maxD a b) := by
  unfold maxD
  split
  · exact Or.inl rfl
  · rcases Date.not_lt_iff.mp ‹¬ Date.lt a b = true› with h | h
    · exact Or.inl h.symm
    · exact Or.inr h

theorem Date.Le.trans {a b c : Date} (h1 : Date.Le a b) (h2 : Date.Le b c) :
    Date.Le a c := by
  rcases h1 with rfl | h1
  · exact h2
  · exact Or.inr (h1.trans_le h2)

theorem foldl_maxD_le (ds : List Date) :
    ∀ a : Date, Date.Le a (ds.foldl maxD a) ∧
      ∀ x ∈ ds, Date.Le x (ds.foldl maxD a) := by
  induction ds with
  | nil => intro a; exact ⟨Or.inl rfl, by simp⟩
  | cons d ds ih =>
    intro a
    constructor
    · exact (Date.le_maxD_left a d).trans (ih (maxD a d)).1
    · intro x hx
      rcases List.mem_cons.mp hx with rfl | hx
      · exact (Date.le_maxD_right a x).trans (ih (maxD a x)).1
      · exact (ih (maxD a d)).2 x hx

theorem maxDate_le {l : List Date} {m : Date} (h : maxDate l = some m) :
    ∀ x ∈ l, Date.Le x m := by
  cases l with
  | nil => simp [maxDate] at h
  | cons d ds =>
    simp only [maxDate, Option.some.injEq] at h
    subst h
    intro x hx
    rcases List.mem_cons.mp hx with rfl | hx
    · exact (foldl_maxD_le ds x).1
    · exact (foldl_maxD_le ds d).2 x hx

theorem maxDate_isSome {l : List Date} (h : l ≠ []) :
    ∃ m, maxDate l = some m := by
  cases l with
  | nil => exact absurd rfl h
  | cons d ds => exact ⟨ds.foldl maxD d, rfl⟩

/-! Helper lemmas about the file model. -/

theorem readRows_of_wf {f : LedgerFile}
    (h : ∀ e ∈ f.rows, 1 + e.vals.length ≤ f.header.length) :
    readRows f = f.rows := by
  unfold readRows
  exact List.filter_eq_self.mpr (fun e he => by simpa using h e he)

theorem parsedDates_of_wf {f : LedgerFile}
    (h : ∀ e ∈ f.rows, 1 + e.vals.length ≤ f.header.length) :
    parsedDates f = entryDates f.rows := by
  unfold parsedDates entryDates
  rw [readRows_of_wf h]

theorem entryDates_append (l₁ l₂ : List Entry) :
    entryDates (l₁ ++ l₂) = entryDates l₁ ++ entryDates l₂ := by
  unfold entryDates
  exact List.filterMap_append l₁ l₂ Entry.date

theorem entryDates_map_rowToEntry (l : List Row) :
    entryDates (l.map rowToEntry) = l.map Row.date := by
  induction l with
  | nil => rfl
  | cons r l ih => simp [entryDates, rowToEntry] at ih ⊢; exact ih

/-! Structural lemmas about the update function, used to settle the claims
by case analysis on its branches. -/

theorem update_true_none (today : Date)
    (fetch : Date → Date → Option (List FetchRow)) :
    update_csv_file true today fetch none
      = fetchAndWrite today defaultStartDate fetch none [] := rfl

theorem update_true_some (today : Date)
    (fetch : Date → Date → Option (List FetchRow)) (f : LedgerFile) :
    update_csv_file true today fetch (some f)
      = if f.header.length ≠ 5 then ⟨some f, true, none, 0, false⟩
        else
          match maxDate (parsedDates f) with
          | none => ⟨some f, true, none, 0, false⟩
          | some last =>
            if last = today then ⟨some f, false, none, 0, false⟩
            else fetchAndWrite today (Date.nextDay last) fetch (some f)
              (parsedDates f) := rfl

theorem update_true_some_badlen {f : LedgerFile} (today : Date)
    (fetch : Date → Date → Option (List FetchRow))
    (hlen : ¬ f.header.length = 5) :
    update_csv_file true today fetch (some f)
      = ⟨some f, true, none, 0, false⟩ := by
  rw [update_true_some, if_pos hlen]

theorem update_true_some_nomax {f : LedgerFile} (today : Date)
    (fetch : Date → Date → Option (List FetchRow))
    (hlen : f.header.length = 5) (hmax : maxDate (parsedDates f) = none) :
    update_csv_file true today fetch (some f)
      = ⟨some f, true, none, 0, false⟩ := by
  rw [update_true_some, if_neg (not_not_intro hlen), hmax]

theorem update_true_some_max {f : LedgerFile} {last : Date} (today : Date)
    (fetch : Date → Date → Option (List FetchRow))
    (hlen : f.header.length = 5)
    (hmax : maxDate (parsedDates f) = some last) :
    update_csv_file true today fetch (some f)
      = if last = today then ⟨some f, false, none, 0, false⟩
        else fetchAndWrite today (Date.nextDay last) fetch (some f)
          (parsedDates f) := by
  rw [update_true_some, if_neg (not_not_intro hlen), hmax]

theorem writeStep_cons_some (r : FetchRow) (t : List FetchRow)
    (f : LedgerFile) (ds : List Date) :
    writeStep (some (r :: t)) (some f) ds
      = if (((processFetched (r :: t)).filter
            fun (x : Row) => !(decide (x.date ∈ ds))).isEmpty)
        then (some f, false)
        else (some ⟨f.header, f.rows ++
              (((processFetched (r :: t)).filter
                fun (x : Row) => !(decide (x.date ∈ ds))).map rowToEntry)⟩,
          true) := rfl

/-- Shape of the ledger after the fetch-and-write phase on an existing
file: either untouched, or the fetch succeeded and the deduplicated new
rows were appended. -/
theorem fetchAndWrite_fileAfter (today start : Date)
    (fetch : Date → Date → Option (List FetchRow))
    (f : LedgerFile) (ds : List Date) :
    (fetchAndWrite today start fetch (some f) ds).fileAfter = some f
    ∨ ∃ hist, fetch start today = some hist ∧
        (fetchAndWrite today start fetch (some f) ds).fileAfter
          = some ⟨f.header, f.rows ++
              (((processFetched hist).filter
                fun (x : Row) => !(decide (x.date ∈ ds))).map rowToEntry)⟩ := by
  unfold fetchAndWrite
  cases hf : fetch start today with
  | none => exact Or.inl rfl
  | some hist =>
    cases hist with
    | nil => exact Or.inl rfl
    | cons r t =>
      refine Or.inr ⟨r :: t, rfl, ?_⟩
      show (writeStep (some (r :: t)) (some f) ds).1 = _
      rw [writeStep_cons_some]
      cases hnew : (((processFetched (r :: t)).filter
          fun (x : Row) => !(decide (x.date ∈ ds))).isEmpty) with
      | false => simp only [hnew, Bool.false_eq_true, if_false]
      | true =>
        have hnil := List.isEmpty_iff.mp hnew
        simp only [hnew, if_true, hnil, List.map_nil, List.append_nil]

/-- The dates of the deduplicated processed rows are the dates of the
provider rows that survive the same deduplication. -/
theorem newData_dates (hist : List FetchRow) (ds : List Date) :
    (((processFetched hist).filter
        fun (x : Row) => !(decide (x.date ∈ ds))).map Row.date)
      = ((hist.filter
          fun (s : FetchRow) => !(decide (s.date ∈ ds))).map FetchRow.date) := by
  unfold processFetched
  rw [List.filter_map, List.map_map]
  rfl

/-! Concrete inputs used by witnesses and counterexamples: the provider row
of the example in the spec (2024-01-02, open 190.0) and small ledgers. -/

def exampleFetchRow : FetchRow := ⟨⟨2024, 1, 2⟩, 190, 191, 189, 190⟩

def exampleFetch : Date → Date → Option (List FetchRow) :=
  fun _ _ => some [exampleFetchRow]

def day20240105 : Date := ⟨2024, 1, 5⟩

/-- The row the first run persists for exampleFetchRow: the four provider
values followed by the four scaled values. -/
def exampleEntry : Entry :=
  ⟨some ⟨2024, 1, 2⟩,
   [190, 191, 189, 190, 20463/10, 205707/100, 203553/100, 20463/10]⟩

/-- A well-formed five-column ledger with one row dated 2024-01-01. -/
def exampleFile5 : LedgerFile :=
  ⟨persistedSchema, [⟨some ⟨2024, 1, 1⟩, [1, 2, 3, 4]⟩]⟩

/-- A well-formed five-column ledger whose last date is day20240105. -/
def exampleFileToday : LedgerFile :=
  ⟨persistedSchema, [⟨some day20240105, [1, 2, 3, 4]⟩]⟩

unseal Rat.mul Rat.inv in
/-- C1: the claim says every write conforms to the five-column persisted
schema.  The code violates this: the four selected provider columns are
never dropped, so the file created on first run has the nine columns
Date, Open, High, Low, Close and the four Spot Price columns, and every
appended row likewise carries eight numeric cells.  This contradicts the
script's own read path, which assigns exactly five column names. -/
theorem C1_nine_column_write :
    (update_csv_file true day20240105 exampleFetch none).fileAfter
      = some ⟨writtenColumns, [exampleEntry]⟩
    ∧ writtenColumns.length = 9
    ∧ persistedSchema.length = 5
    ∧ writtenColumns ≠ persistedSchema
    ∧ ∀ r : Row, (rowToEntry r).vals.length = 8 := by
  refine ⟨by decide, by decide, by decide, by decide, fun r => rfl⟩

/-- C2: if no ledger file exists the fetch window starts at the default
origin 2020-01-01, and if the ledger's maximum parseable date is last,
earlier than today, the window starts at last plus one calendar day. -/
theorem C2_fetch_window :
    ∀ (today : Date) (fetch : Date → Date → Option (List FetchRow)),
      defaultStartDate = ⟨2020, 1, 1⟩
      ∧ (update_csv_file true today fetch none).fetchWindow
          = some (defaultStartDate, today)
      ∧ ∀ (f : LedgerFile) (last : Date),
          f.header.length = 5 →
          maxDate (parsedDates f) = some last →
          Date.Lt last today →
          (update_csv_file true today fetch (some f)).fetchWindow
            = some (Date.nextDay last, today) := by
  intro today fetch
  refine ⟨rfl, rfl, ?_⟩
  intro f last hlen hmax hlt
  unfold update_csv_file
  simp [hlen, hmax, hlt.ne, fetchAndWrite]

/-- C2 witness: the two branches at concrete inputs. -/
theorem C2_fetch_window_witness :
    (update_csv_file true day20240105 exampleFetch none).fetchWindow
      = some (⟨2020, 1, 1⟩, day20240105)
    ∧ (update_csv_file true day20240105 exampleFetch
        (some exampleFile5)).fetchWindow
      = some (⟨2024, 1, 2⟩, day20240105) := by
  constructor
  · have h := (C2_fetch_window day20240105 exampleFetch).2.1
    rw [h]; rfl
  · have h := (C2_fetch_window day20240105 exampleFetch).2.2 exampleFile5
      ⟨2024, 1, 1⟩ (by decide) (by decide) (by decide)
    rw [h]; rfl

/-- C5: the claim says that when the ledger already holds today's date the
whole cycle is a no-op and no publish attempt is made.  The first half
holds, but the scheduled job calls push_to_github unconditionally after
update_csv_file returns, so a publish attempt (with its metadata GET) is
made in that tick. -/
theorem C5_publish_still_attempted :
    (update_csv_file true day20240105 (fun _ _ => none)
        (some exampleFileToday)).fetchWindow = none
    ∧ (update_csv_file true day20240105 (fun _ _ => none)
        (some exampleFileToday)).wroteFile = false
    ∧ (update_csv_file true day20240105 (fun _ _ => none)
        (some exampleFileToday)).fileAfter = some exampleFileToday
    ∧ (dailyJob true day20240105 (fun _ _ => none) (some exampleFileToday)
        ⟨200, some "abc"⟩ 200).2
      = some (.putIssued (some "abc") 200 true) := by
  decide

/-- C5 amended: when the maximum existing date equals today,
update_csv_file returns without fetching or writing, and the scheduled
job then still invokes push_to_github on the unchanged file. -/
theorem C5_noop_update_then_push :
    ∀ (today : Date) (f : LedgerFile)
      (fetch : Date → Date → Option (List FetchRow))
      (resp : GetResponse) (ps : Nat),
      f.header.length = 5 →
      maxDate (parsedDates f) = some today →
      (update_csv_file true today fetch (some f)).fileAfter = some f
      ∧ (update_csv_file true today fetch (some f)).fetchWindow = none
      ∧ (update_csv_file true today fetch (some f)).wroteFile = false
      ∧ (dailyJob true today fetch (some f) resp ps).2
        = some (push_to_github true (some f) resp ps) := by
  intro today f fetch resp ps hlen hmax
  have hupd : update_csv_file true today fetch (some f)
      = ⟨some f, false, none, 0, false⟩ := by
    unfold update_csv_file
    simp [hlen, hmax]
  refine ⟨by rw [hupd], by rw [hupd], by rw [hupd], ?_⟩
  unfold dailyJob
  rw [hupd]
  rfl

/-- C5 amended witness: the no-op update followed by the push at concrete
inputs. -/
theorem C5_noop_update_then_push_witness :
    (update_csv_file true day20240105 (fun _ _ => none)
        (some exampleFileToday)).fileAfter = some exampleFileToday
    ∧ (update_csv_file true day20240105 (fun _ _ => none)
        (some exampleFileToday)).fetchWindow = none
    ∧ (update_csv_file true day20240105 (fun _ _ => none)
        (some exampleFileToday)).wroteFile = false
    ∧ (dailyJob true day20240105 (fun _ _ => none) (some exampleFileToday)
        ⟨200, some "abc"⟩ 200).2
      = some (push_to_github true (some exampleFileToday)
          ⟨200, some "abc"⟩ 200) :=
  C5_noop_update_then_push day20240105 exampleFileToday (fun _ _ => none)
    ⟨200, some "abc"⟩ 200 (by decide) (by decide)

/-- C6: the claim says the provider fetch is retried up to 3 times with a
5-second delay.  The code defines such a retry wrapper but never applies
it: update_csv_file calls fetch_data_from_yfinance exactly once, and a
failing fetch is treated as no new data immediately. -/
theorem C6_single_fetch_attempt :
    (update_csv_file true day20240105 (fun _ _ => none) none).fetchCalls = 1
    ∧ (update_csv_file true day20240105 (fun _ _ => none) none).fileAfter
        = none
    ∧ (update_csv_file true day20240105 (fun _ _ => none) none).raised = false
    ∧ retryRetries = 3
    ∧ (update_csv_file true day20240105 (fun _ _ => none) none).fetchCalls
        ≠ retryRetries := by
  decide

/-- C6 amended: the retry wrapper exists with a fixed bound of 3 attempts
and a 5-second delay (an always-failing operation is attempted exactly 3
times and then gives up with none), but the pipeline's provider fetch is
not wrapped in it: every run of update_csv_file calls the fetcher at most
once. -/
theorem C6_retry_defined_but_unused :
    retry (fun _ => (none : Option (List FetchRow))) retryRetries retryDelay
      = (none, 3)
    ∧ retryRetries = 3
    ∧ retryDelay = 5
    ∧ ∀ (tok : Bool) (today : Date)
        (fetch : Date → Date → Option (List FetchRow))
        (file : Option LedgerFile),
        (update_csv_file tok today fetch file).fetchCalls ≤ 1 := by
  refine ⟨rfl, rfl, rfl, ?_⟩
  intro tok today fetch file
  unfold update_csv_file
  split
  · exact Nat.zero_le 1
  · split
    · exact Nat.le_refl 1
    · split
      · exact Nat.zero_le 1
      · split
        · exact Nat.zero_le 1
        · split
          · exact Nat.zero_le 1
          · exact Nat.le_refl 1

/-- C7: the claim says push_to_github has create-if-absent-else-replace
semantics.  The code aborts on any non-200 metadata GET, so when the
remote file does not exist (404) no PUT is issued and nothing is created. -/
theorem C7_no_create_when_absent :
    push_to_github true (some exampleFile5) ⟨404, none⟩ 201
      = .metadataError 404
    ∧ (push_to_github true (some exampleFile5) ⟨404, none⟩ 201).isPut
      = false := by
  exact ⟨rfl, rfl⟩

/-- C7 amended: push_to_github replaces an existing remote file only: a
non-200 metadata GET (in particular 404 for an absent file) aborts the
publish without a PUT, and a 200 GET leads to a PUT carrying the fetched
version token. -/
theorem C7_put_only_on_existing_remote :
    ∀ (f : LedgerFile) (resp : GetResponse) (ps : Nat),
      (resp.status ≠ 200 →
        push_to_github true (some f) resp ps = .metadataError resp.status
        ∧ (push_to_github true (some f) resp ps).isPut = false)
      ∧ (resp.status = 200 →
        push_to_github true (some f) resp ps
          = .putIssued resp.sha ps (ps == 200 || ps == 201)) := by
  intro f resp ps
  constructor
  · intro h
    constructor
    · unfold push_to_github
      simp [h]
    · unfold push_to_github
      simp [h, PushOutcome.isPut]
  · intro h
    unfold push_to_github
    simp [h]

/-- C7 amended witness: both branches at concrete inputs. -/
theorem C7_put_only_on_existing_remote_witness :
    (push_to_github true (some exampleFile5) ⟨500, none⟩ 200
      = .metadataError 500)
    ∧ push_to_github true (some exampleFile5) ⟨200, some "abc"⟩ 201
      = .putIssued (some "abc") 201 true :=
  ⟨(C7_put_only_on_existing_remote exampleFile5 ⟨500, none⟩ 200).1
      (by decide) |>.1,
   (C7_put_only_on_existing_remote exampleFile5 ⟨200, some "abc"⟩ 201).2 rfl⟩

/-- C8: a run that obtains no new provider data (fetch fails, returns an
empty frame, or returns only rows whose dates are already in the ledger)
leaves the ledger file exactly as it was and performs no write, so the
second same-day run of the cycle keeps the ledger byte-identical. -/
theorem C8_no_new_data_no_write :
    ∀ (today : Date) (file : Option LedgerFile)
      (fetch : Date → Date → Option (List FetchRow)),
      (∀ s e hist, fetch s e = some hist →
        ∀ r ∈ hist, ∃ f, file = some f ∧ r.date ∈ parsedDates f) →
      (update_csv_file true today fetch file).fileAfter = file
      ∧ (update_csv_file true today fetch file).wroteFile = false := by
  intro today file fetch H
  cases file with
  | none =>
    rw [update_true_none]
    unfold fetchAndWrite
    cases hf : fetch defaultStartDate today with
    | none => exact ⟨rfl, rfl⟩
    | some hist =>
      cases hist with
      | nil => exact ⟨rfl, rfl⟩
      | cons r t =>
        obtain ⟨f, hf', _⟩ := H _ _ _ hf r (List.mem_cons_self r t)
        exact Option.noConfusion hf'
  | some f =>
    by_cases hlen : f.header.length = 5
    · cases hmax : maxDate (parsedDates f) with
      | none => rw [update_true_some_nomax today fetch hlen hmax]; exact ⟨rfl, rfl⟩
      | some last =>
        rw [update_true_some_max today fetch hlen hmax]
        by_cases hl : last = today
        · rw [if_pos hl]; exact ⟨rfl, rfl⟩
        · rw [if_neg hl]
          unfold fetchAndWrite
          cases hf : fetch (Date.nextDay last) today with
          | none => exact ⟨rfl, rfl⟩
          | some hist =>
            cases hist with
            | nil => exact ⟨rfl, rfl⟩
            | cons r t =>
              have hnil : ((processFetched (r :: t)).filter
                  fun (x : Row) => !(decide (x.date ∈ parsedDates f))) = [] := by
                rw [List.filter_eq_nil_iff]
                intro a ha
                simp only [processFetched] at ha
                obtain ⟨s, hs, rfl⟩ := List.mem_map.mp ha
                obtain ⟨f', hf', hd⟩ := H _ _ _ hf s hs
                have : f' = f := (Option.some.inj hf').symm
                subst this
                simp [hd]
              constructor
              · show (writeStep (some (r :: t)) (some f) (parsedDates f)).1
                  = some f
                rw [writeStep_cons_some, hnil]
                rfl
              · show (writeStep (some (r :: t)) (some f) (parsedDates f)).2
                  = false
                rw [writeStep_cons_some, hnil]
                rfl
    · rw [update_true_some_badlen today fetch hlen]; exact ⟨rfl, rfl⟩

/-- C8 witness: a failing fetch on an existing ledger changes nothing. -/
theorem C8_no_new_data_no_write_witness :
    (update_csv_file true day20240105 (fun _ _ => none)
        (some exampleFile5)).fileAfter = some exampleFile5
    ∧ (update_csv_file true day20240105 (fun _ _ => none)
        (some exampleFile5)).wroteFile = false :=
  C8_no_new_data_no_write day20240105 (some exampleFile5) (fun _ _ => none)
    (fun _ _ _ h => Option.noConfusion h)

/-- C10: on an existing ledger, update_csv_file only ever appends: the
prior rows are a prefix of the result, every appended row carries a date
absent from the existing parseable dates, and on the branches where an
exception escapes nothing is appended. -/
theorem C10_append_only_frame :
    ∀ (today : Date) (fetch : Date → Date → Option (List FetchRow))
      (f : LedgerFile),
      ∃ tail : List Entry,
        (update_csv_file true today fetch (some f)).fileAfter
          = some ⟨f.header, f.rows ++ tail⟩
        ∧ (∀ e ∈ tail, ∃ d, e.date = some d ∧ d ∉ parsedDates f)
        ∧ ((update_csv_file true today fetch (some f)).raised = true →
            tail = []) := by
  intro today fetch f
  by_cases hlen : f.header.length = 5
  · cases hmax : maxDate (parsedDates f) with
    | none =>
      rw [update_true_some_nomax today fetch hlen hmax]
      exact ⟨[], by simp, by simp, fun _ => rfl⟩
    | some last =>
      rw [update_true_some_max today fetch hlen hmax]
      by_cases hl : last = today
      · rw [if_pos hl]; exact ⟨[], by simp, by simp, fun _ => rfl⟩
      · rw [if_neg hl]
        rcases fetchAndWrite_fileAfter today (Date.nextDay last) fetch f
            (parsedDates f) with h | ⟨hist, hf, h⟩
        · exact ⟨[], by simp [h], by simp, fun _ => rfl⟩
        · refine ⟨((processFetched hist).filter
              fun (x : Row) => !(decide (x.date ∈ parsedDates f))).map
                rowToEntry, h, ?_, ?_⟩
          · intro e he
            obtain ⟨x, hx, rfl⟩ := List.mem_map.mp he
            refine ⟨x.date, rfl, ?_⟩
            have hp := (List.mem_filter.mp hx).2
            simpa using hp
          · intro hr
            exact absurd hr (by simp [fetchAndWrite])
  · rw [update_true_some_badlen today fetch hlen]
    exact ⟨[], by simp, by simp, fun _ => rfl⟩

/-- C10 witness: the frame property at a concrete run. -/
theorem C10_append_only_frame_witness :
    ∃ tail : List Entry,
      (update_csv_file true day20240105 (fun _ _ => none)
          (some exampleFile5)).fileAfter
        = some ⟨exampleFile5.header, exampleFile5.rows ++ tail⟩
      ∧ (∀ e ∈ tail, ∃ d, e.date = some d ∧ d ∉ parsedDates exampleFile5)
      ∧ ((update_csv_file true day20240105 (fun _ _ => none)
          (some exampleFile5)).raised = true → tail = []) :=
  C10_append_only_frame day20240105 (fun _ _ => none) exampleFile5

unseal Rat.mul Rat.inv in
/-- C9: the claim says no exception ever propagates out of update_csv_file
or push_to_github, even on a ledger whose column count differs from five.
The code violates this: the read block catches only ParserError, so the
five-name column assignment on a nine-column file (exactly what the first
run itself creates) raises a ValueError that escapes to the caller. -/
theorem C9_exception_escapes :
    (update_csv_file true day20240105 exampleFetch none).raised = false
    ∧ (update_csv_file true day20240105 exampleFetch none).fileAfter
        = some ⟨writtenColumns, [exampleEntry]⟩
    ∧ (update_csv_file true ⟨2024, 1, 6⟩ exampleFetch
        (some ⟨writtenColumns, [exampleEntry]⟩)).raised = true := by
  decide

/-- C9 amended: push_to_github never propagates (its whole body is guarded
by a catch-all handler, every failure becomes a logged outcome), and
update_csv_file propagates no exception when the existing ledger has the
expected five columns and at least one parseable date (or when no ledger
exists); the escape happens only on a malformed ledger. -/
theorem C9_no_escape_on_wellformed_ledger :
    ∀ (today : Date) (fetch : Date → Date → Option (List FetchRow))
      (f : LedgerFile),
      f.header.length = 5 →
      parsedDates f ≠ [] →
      (update_csv_file true today fetch (some f)).raised = false
      ∧ (update_csv_file true today fetch none).raised = false
      ∧ ∀ (tok : Bool) (resp : GetResponse) (ps : Nat),
          push_to_github tok none resp ps = .noToken
          ∨ push_to_github tok none resp ps = .caughtError := by
  intro today fetch f hlen hne
  obtain ⟨m, hm⟩ := maxDate_isSome hne
  refine ⟨?_, rfl, ?_⟩
  · rw [update_true_some_max today fetch hlen hm]
    by_cases hl : m = today
    · rw [if_pos hl]
    · rw [if_neg hl]
      rfl
  · intro tok resp ps
    cases tok
    · exact Or.inl rfl
    · exact Or.inr rfl

/-- C9 amended witness: the well-formed cases at concrete inputs. -/
theorem C9_no_escape_on_wellformed_ledger_witness :
    (update_csv_file true day20240105 (fun _ _ => none)
        (some exampleFile5)).raised = false
    ∧ (update_csv_file true day20240105 (fun _ _ => none) none).raised = false
    ∧ ∀ (tok : Bool) (resp : GetResponse) (ps : Nat),
        push_to_github tok none resp ps = .noToken
        ∨ push_to_github tok none resp ps = .caughtError :=
  C9_no_escape_on_wellformed_ledger day20240105 (fun _ _ => none)
    exampleFile5 (by decide) (by decide)

unseal Rat.mul Rat.inv in
/-- C3: every row produced by the column-processing step carries the four
provider values scaled by exactly 10.77 (the arithmetic is modelled by
exact rationals, scaling_factor = 1077/100), and on the spec's example a
provider open of 190.0 on 2024-01-02 is persisted with a scaled open of
2046.3 = 20463/10 (the fifth cell of the written row). -/
theorem C3_scaling_exact :
    (∀ (hist : List FetchRow) (r : Row), r ∈ processFetched hist →
      ∃ s, s ∈ hist ∧ r.date = s.date
        ∧ r.openSpot = s.Open * scaling_factor
        ∧ r.highSpot = s.High * scaling_factor
        ∧ r.lowSpot = s.Low * scaling_factor
        ∧ r.closeSpot = s.Close * scaling_factor)
    ∧ scaling_factor = 1077 / 100
    ∧ exampleFetchRow.Open = 190
    ∧ (update_csv_file true day20240105 exampleFetch none).fileAfter
        = some ⟨writtenColumns, [exampleEntry]⟩
    ∧ exampleEntry.vals[4]? = some (20463 / 10) := by
  refine ⟨?_, rfl, rfl, by decide, by decide⟩
  intro hist r hr
  simp only [processFetched] at hr
  obtain ⟨s, hs, rfl⟩ := List.mem_map.mp hr
  exact ⟨s, hs, rfl, rfl, rfl, rfl, rfl⟩

/-- The processed form of exampleFetchRow. -/
def processedExampleRow : Row :=
  ⟨⟨2024, 1, 2⟩, 190, 191, 189, 190,
   20463/10, 205707/100, 203553/100, 20463/10⟩

unseal Rat.mul Rat.inv in
/-- C3 witness: the scaling property applied to the example row. -/
theorem C3_scaling_exact_witness :
    ∃ s, s ∈ [exampleFetchRow] ∧ processedExampleRow.date = s.date
      ∧ processedExampleRow.openSpot = s.Open * scaling_factor
      ∧ processedExampleRow.highSpot = s.High * scaling_factor
      ∧ processedExampleRow.lowSpot = s.Low * scaling_factor
      ∧ processedExampleRow.closeSpot = s.Close * scaling_factor :=
  C3_scaling_exact.1 [exampleFetchRow] processedExampleRow (by decide)

/-- C4: starting from a well-formed five-column ledger whose dates are
unique and strictly ascending with maximum last earlier than today, and a
provider that returns rows with strictly ascending dates no earlier than
the requested window start (last plus one day), the updated ledger's dates
are again strictly ascending and duplicate-free. -/
theorem C4_dates_unique_ascending :
    ∀ (today : Date) (f : LedgerFile)
      (fetch : Date → Date → Option (List FetchRow)) (last : Date),
      f.header.length = 5 →
      (∀ e ∈ f.rows, 1 + e.vals.length ≤ f.header.length) →
      List.Pairwise Date.Lt (entryDates f.rows) →
      maxDate (entryDates f.rows) = some last →
      Date.Lt last today →
      (∀ hist, fetch (Date.nextDay last) today = some hist →
        List.Pairwise Date.Lt (hist.map FetchRow.date)
        ∧ ∀ s ∈ hist, Date.Le (Date.nextDay last) s.date) →
      ∃ out : LedgerFile,
        (update_csv_file true today fetch (some f)).fileAfter = some out
        ∧ List.Pairwise Date.Lt (entryDates out.rows)
        ∧ (entryDates out.rows).Nodup := by
  intro today f fetch last hlen hwf hpw hmax hlt hfetch
  have hnd0 : (entryDates f.rows).Nodup := hpw.imp Date.Lt.ne
  have hpd : parsedDates f = entryDates f.rows := parsedDates_of_wf hwf
  have hmax' : maxDate (parsedDates f) = some last := by rw [hpd]; exact hmax
  rw [update_true_some_max today fetch hlen hmax', if_neg hlt.ne, hpd]
  rcases fetchAndWrite_fileAfter today (Date.nextDay last) fetch f
      (entryDates f.rows) with h | ⟨hist, hf, h⟩
  · exact ⟨f, h, hpw, hnd0⟩
  · obtain ⟨hsorted, hwin⟩ := hfetch hist hf
    have hall : List.Pairwise Date.Lt
        (entryDates (f.rows ++ (((processFetched hist).filter
          fun (x : Row) => !(decide (x.date ∈ entryDates f.rows))).map
            rowToEntry))) := by
      rw [entryDates_append, entryDates_map_rowToEntry, newData_dates]
      rw [List.pairwise_append]
      refine ⟨hpw, ?_, ?_⟩
      · exact List.Pairwise.sublist
          (List.Sublist.map FetchRow.date (List.filter_sublist hist)) hsorted
      · intro x hx y hy
        obtain ⟨s, hs, rfl⟩ := List.mem_map.mp hy
        have hsmem : s ∈ hist := List.mem_of_mem_filter hs
        exact ((maxDate_le hmax x hx).trans_lt
          (Date.lt_nextDay last)).trans_le (hwin s hsmem)
    exact ⟨_, h, hall, hall.imp Date.Lt.ne⟩

/-- C4 witness: the invariant for a concrete ledger and provider result. -/
theorem C4_dates_unique_ascending_witness :
    ∃ out : LedgerFile,
      (update_csv_file true day20240105 exampleFetch
          (some exampleFile5)).fileAfter = some out
      ∧ List.Pairwise Date.Lt (entryDates out.rows)
      ∧ (entryDates out.rows).Nodup :=
  C4_dates_unique_ascending day20240105 exampleFile5 exampleFetch
    ⟨2024, 1, 1⟩ (by decide) (by decide) (by decide) (by decide) (by decide)
    (fun hist hh => by
      injection hh with h2
      subst h2
      exact ⟨by decide, by decide⟩)

end GoldPrice
